import Mathlib

/- Formal model of the native detection engine of Smart-AutoClicker
   (core/smart/detection/src/main/cpp/detection/detector.cpp).

   The engine locates a template image ("condition") inside a captured screen
   frame, either by normalized cross-correlation plus a mean-color cross-check
   (visual mode) or by OCR substring containment (text mode).  The pixel data
   is modelled with exact rationals, rectangles with integers.  The helper
   classes declared in detector.hpp (DetectionImage, ScaleRatioManager,
   MatchingResults, DetectionResult) are not part of the translated source;
   their behaviour is modelled from the specification where noted.  The
   correlation capability (cv::matchTemplate + MatchingResults.locateNextMinMax)
   is abstracted as the list of successive candidates it yields, and the OCR
   capability (tesseract) as a function from an image to the extracted text. -/

/-- An axis-aligned integer rectangle, as cv::Rect: origin plus size. -/
structure Rect where
  x : Int
  y : Int
  width : Int
  height : Int
  deriving DecidableEq, Repr

/-- An integer size, as cv::Size. -/
structure Size where
  width : Int
  height : Int
  deriving DecidableEq, Repr

/-- One color pixel: the three channel values (red, green, blue) as exact
rationals standing for the 8-bit channel values 0..255. -/
abbrev Pixel := ℚ × ℚ × ℚ

/-- A color image: rows of pixels (row-major pixel grid, as a cv::Mat). -/
abbrev Image := List (List Pixel)

/-- All pixels of an image, in row-major order. -/
def pixelList (img : Image) : List Pixel := img.flatten

/-- Number of rows of the image. -/
def imageHeight (img : Image) : Int := img.length

/-- Number of columns of the image (length of the first row). -/
def imageWidth (img : Image) : Int := (img.headD []).length

/-- Arithmetic mean of a list of rationals (0 for the empty list, matching
the convention that division by zero yields zero). -/
def meanOf (l : List ℚ) : ℚ := l.sum / l.length

/-- Per-channel mean color of an image, as cv::mean restricted to the three
color channels. -/
def meanColor (img : Image) : ℚ × ℚ × ℚ :=
  let ps := pixelList img
  (meanOf (ps.map fun p => p.1),
   meanOf (ps.map fun p => p.2.1),
   meanOf (ps.map fun p => p.2.2))

/-- Detector::getColorDiff: sums the absolute differences of the per-channel
means of the two images and normalizes by 255 * 3, scaled by 100. -/
def getColorDiff (image : Image) (condition : Image) : ℚ :=
  let m := meanColor image
  let c := meanColor condition
  ((|m.1 - c.1| + |m.2.1 - c.2.1| + |m.2.2 - c.2.2|) * 100) / (255 * 3)

/-- Crop an image to a rectangle, as the cv::Mat roi view: keep rows
y .. y+height-1 and, in each, columns x .. x+width-1. -/
def cropImage (img : Image) (r : Rect) : Image :=
  ((img.drop r.y.toNat).take r.height.toNat).map
    (fun row => (row.drop r.x.toNat).take r.width.toNat)

/-- Modelled from the spec: the ScaleRatioManager's derivation of a scaled
coordinate from a full-size one, `scaled = round(full * ratio)` componentwise
(spec §3, Rectangle invariant). -/
def scaleDim (v : Int) (scaleFactor : ℚ) : Int := round ((v : ℚ) * scaleFactor)

/-- Modelled from the spec: a RegionOfInterest, one rectangle carried in both
the full-size and the scaled coordinate space (spec §3, §4.3). -/
structure Roi where
  fullSize : Rect
  scaled : Rect
  deriving DecidableEq, Repr

/-- Modelled from the spec: RegionOfInterest::setFullSize derives the scaled
rectangle from the full-size rectangle and the scale ratio (spec §4.3). -/
def Roi.setFullSizeRect (r : Rect) (scaleFactor : ℚ) : Roi :=
  { fullSize := r,
    scaled := ⟨scaleDim r.x scaleFactor, scaleDim r.y scaleFactor,
               scaleDim r.width scaleFactor, scaleDim r.height scaleFactor⟩ }

/-- Does the rectangle lie inside a frame of the given size (origin 0,0)? -/
def Rect.insideSize (r : Rect) (s : Size) : Bool :=
  decide (0 ≤ r.x) && decide (0 ≤ r.y) &&
  decide (r.x + r.width ≤ s.width) && decide (r.y + r.height ≤ s.height)

/-- Modelled from the spec: the screen frame as held by a DetectionImage,
with its full-size color pixel grid and the dimensions of its full-size and
scaled forms (spec §3, §4.2 ImageBuffer). -/
structure ScreenImage where
  fullSizeColor : Image
  fullSize : Size
  scaledSize : Size
  deriving DecidableEq, Repr

/-- Modelled from the spec: DetectionImage::isFullSizeContains, a bounds
check in the full-size coordinate space (spec §4.2). -/
def ScreenImage.isFullSizeContains (img : ScreenImage) (r : Rect) : Bool :=
  r.insideSize img.fullSize

/-- Modelled from the spec: DetectionImage::isScaledContains, a bounds check
in the scaled coordinate space (spec §4.2). -/
def ScreenImage.isScaledContains (img : ScreenImage) (r : Rect) : Bool :=
  r.insideSize img.scaledSize

/-- The whole-frame rectangle of the screen image (DetectionImage.fullSizeRoi). -/
def ScreenImage.fullSizeRoi (img : ScreenImage) : Rect :=
  ⟨0, 0, img.fullSize.width, img.fullSize.height⟩

/-- Modelled from the spec: the processed condition (template) image, with
its full-size color pixels and the size of its scaled grayscale form
(spec §4.2 ImageBuffer). -/
structure ConditionImage where
  fullSizeColor : Image
  scaledSize : Size
  deriving DecidableEq, Repr

/-- Modelled from the spec: DetectionImage::processBitmap produces the
full-size color pixels and the scaled form whose dimensions are
`round(fullSize * ratio)` (spec §3, §4.2). -/
def processBitmap (bmp : Image) (scaleFactor : ℚ) : ConditionImage :=
  { fullSizeColor := bmp,
    scaledSize := ⟨scaleDim (imageWidth bmp) scaleFactor,
                   scaleDim (imageHeight bmp) scaleFactor⟩ }

/-- Modelled from the spec: DetectionImage::isCroppedScaledContains verifies
the cropped search area (whose scaled dimensions are those of the detection
ROI set by setCropping) is at least as large as the given size (spec §4.2). -/
def isCroppedScaledContains (detectionRoi : Roi) (s : Size) : Bool :=
  decide (s.width ≤ detectionRoi.scaled.width) &&
  decide (s.height ≤ detectionRoi.scaled.height)

/-- Modelled from the spec: one match candidate as yielded by
MatchingResults::locateNextMinMax — a template-footprint ROI at the located
position, in both coordinate spaces, and the correlation score maxVal
(spec §3 MatchCandidate, §4.4 MatchSurface). -/
structure Candidate where
  scaledRoi : Rect
  fullSizeRoi : Rect
  maxVal : ℚ
  deriving DecidableEq, Repr

/-- Modelled from the spec: MatchingResults.roi.fullSizeCenterX, the x of the
candidate's full-size center point (spec §3: template size derives a
full-size center point). -/
def Candidate.fullSizeCenterX (c : Candidate) : Int :=
  c.fullSizeRoi.x + c.fullSizeRoi.width / 2

/-- Modelled from the spec: MatchingResults.roi.fullSizeCenterY, the y of the
candidate's full-size center point. -/
def Candidate.fullSizeCenterY (c : Candidate) : Int :=
  c.fullSizeRoi.y + c.fullSizeRoi.height / 2

/-- Modelled from the spec: the DetectionOutcome marshalled by
DetectionResult — found flag, full-size center coordinates, confidence
(spec §3 DetectionOutcome). -/
structure DetectionResultState where
  found : Bool
  centerX : Int
  centerY : Int
  confidence : ℚ
  deriving DecidableEq, Repr

/-- Modelled from the spec: DetectionResult::clearResults, the canonical
not-found value with found = false and coordinates/confidence zeroed
(spec §3, §7). -/
def clearResults : DetectionResultState :=
  { found := false, centerX := 0, centerY := 0, confidence := 0 }

/-- Modelled from the spec: DetectionResult::setResults stores the given
found flag, center coordinates and confidence. -/
def setResults (found : Bool) (centerX centerY : Int) (confidence : ℚ) :
    DetectionResultState :=
  { found := found, centerX := centerX, centerY := centerY, confidence := confidence }

/-- Detector::isResultAboveThreshold: the correlation score is accepted when
it is strictly above the floor (100 - threshold) / 100. -/
def isResultAboveThreshold (maxVal : ℚ) (threshold : Int) : Bool :=
  decide ((((100 - threshold : Int) : ℚ)) / 100 < maxVal)


/-- The search loop of the visual-mode Detector::match (detector.cpp lines
112-134), over the successive candidates yielded by the correlation
capability.  For each candidate: an out-of-bounds scaled ROI is skipped; an
in-bounds candidate whose score is not above the threshold resolves
not-found at that candidate; otherwise the mean-color distance between the
ROI-cropped full-size color region and the condition's full-size color is
compared with the threshold, accepting when strictly below it.  `none`
stands for the candidate stream being exhausted without a resolution. -/
def visualLoop (screen : ScreenImage) (croppedFullSizeColor : Image)
    (conditionImage : ConditionImage) (threshold : Int) :
    List Candidate → Option (Bool × Candidate)
  | [] => none
  | c :: rest =>
    if screen.isScaledContains c.scaledRoi then
      if isResultAboveThreshold c.maxVal threshold then
        if getColorDiff croppedFullSizeColor conditionImage.fullSizeColor < (threshold : ℚ) then
          some (true, c)
        else
          visualLoop screen croppedFullSizeColor conditionImage threshold rest
      else
        some (false, c)
    else
      visualLoop screen croppedFullSizeColor conditionImage threshold rest

/-- The first candidate of the list whose scaled ROI is inside the scaled
frame bounds. -/
def firstInBounds (screen : ScreenImage) : List Candidate → Option Candidate
  | [] => none
  | c :: rest =>
    if screen.isScaledContains c.scaledRoi then some c
    else firstInBounds screen rest

/-- Observable effects of one visual-mode Detector::match call: the outcome
written to the DetectionResult (none when the candidate stream ran out
before a resolution), the condition image processed by processBitmap (none
when the call rejected before processing it), and whether cv::matchTemplate
was invoked. -/
structure MatchTrace where
  result : Option DetectionResultState
  processedCondition : Option ConditionImage
  matchTemplateInvoked : Bool
  deriving DecidableEq, Repr

/-- Visual-mode Detector::match (detector.cpp lines 85-143).  The candidate
list abstracts the successive results of MatchingResults::locateNextMinMax
on the correlation surface. -/
def matchVisual (screen : ScreenImage) (scaleFactor : ℚ) (detectionRoi : Roi)
    (conditionBitmap : Image) (threshold : Int) (candidates : List Candidate) :
    MatchTrace :=
  if screen.isFullSizeContains detectionRoi.fullSize &&
      screen.isScaledContains detectionRoi.scaled then
    let conditionImage := processBitmap conditionBitmap scaleFactor
    let croppedFullSizeColor := cropImage screen.fullSizeColor detectionRoi.fullSize
    if isCroppedScaledContains detectionRoi conditionImage.scaledSize then
      match visualLoop screen croppedFullSizeColor conditionImage threshold candidates with
      | none =>
        { result := none, processedCondition := some conditionImage,
          matchTemplateInvoked := true }
      | some (isFound, c) =>
        { result := some (setResults isFound
            (detectionRoi.fullSize.x + c.fullSizeCenterX)
            (detectionRoi.fullSize.y + c.fullSizeCenterY)
            c.maxVal),
          processedCondition := some conditionImage,
          matchTemplateInvoked := true }
    else
      { result := some clearResults, processedCondition := some conditionImage,
        matchTemplateInvoked := false }
  else
    { result := some clearResults, processedCondition := none,
      matchTemplateInvoked := false }

/-- Is `needle` a contiguous substring of `hay`?  Models
std::string::find(needle) != npos. -/
def isSubstringOf (needle hay : List Char) : Bool :=
  (List.range (hay.length + 1)).any (fun i => needle.isPrefixOf (hay.drop i))

/-- How the text-mode search loop exited: a candidate whose extracted text
contained the target, the 100-cycle cap, or exhaustion of the candidate
stream (whose continuation is outside the translated source). -/
inductive TextExit where
  | foundAt (c : Candidate)
  | capReached
  | exhausted
  deriving DecidableEq, Repr

/-- Map a candidate transformation over a TextExit. -/
def TextExit.mapCand (f : Candidate → Candidate) : TextExit → TextExit
  | TextExit.foundAt c => TextExit.foundAt (f c)
  | TextExit.capReached => TextExit.capReached
  | TextExit.exhausted => TextExit.exhausted

/-- The search loop of the text-mode Detector::match (detector.cpp lines
172-206): skip out-of-bounds candidates; for an in-bounds candidate, hand
the frame's full-size color image to the OCR capability, extract text, and
accept when the identifying string occurs in it; otherwise increment
repeatCycle and give up once it reaches 100.  Returns the exit and the final
repeatCycle counter (which counts the failed OCR extraction attempts). -/
def textLoop (screen : ScreenImage) (ocr : Image → List Char)
    (identifying : List Char) : Nat → List Candidate → TextExit × Nat
  | repeatCycle, [] => (TextExit.exhausted, repeatCycle)
  | repeatCycle, c :: rest =>
    if screen.isScaledContains c.scaledRoi then
      if isSubstringOf identifying (ocr screen.fullSizeColor) then
        (TextExit.foundAt c, repeatCycle)
      else if repeatCycle + 1 ≥ 100 then
        (TextExit.capReached, repeatCycle + 1)
      else
        textLoop screen ocr identifying (repeatCycle + 1) rest
    else
      textLoop screen ocr identifying repeatCycle rest

/-- Observable effects of one text-mode Detector::match call: outcome,
processed condition image, whether cv::matchTemplate was invoked, and the
number of OCR extraction attempts performed. -/
structure TextMatchTrace where
  result : Option DetectionResultState
  processedCondition : Option ConditionImage
  matchTemplateInvoked : Bool
  ocrAttempts : Nat
  deriving DecidableEq, Repr

/-- Text-mode Detector::match (detector.cpp lines 145-215).  The OCR
capability is abstracted as a function from the image handed to it to the
extracted text; the candidate list abstracts the successive results of
MatchingResults::locateNextMinMax. -/
def matchText (screen : ScreenImage) (scaleFactor : ℚ) (detectionRoi : Roi)
    (conditionBitmap : Image) (identifying : List Char) (ocr : Image → List Char)
    (candidates : List Candidate) : TextMatchTrace :=
  if screen.isFullSizeContains detectionRoi.fullSize &&
      screen.isScaledContains detectionRoi.scaled then
    let conditionImage := processBitmap conditionBitmap scaleFactor
    if isCroppedScaledContains detectionRoi conditionImage.scaledSize then
      match textLoop screen ocr identifying 0 candidates with
      | (TextExit.foundAt c, cyc) =>
        { result := some (setResults true
            (detectionRoi.fullSize.x + c.fullSizeCenterX)
            (detectionRoi.fullSize.y + c.fullSizeCenterY)
            c.maxVal),
          processedCondition := some conditionImage,
          matchTemplateInvoked := true, ocrAttempts := cyc + 1 }
      | (TextExit.capReached, cyc) =>
        { result := some clearResults, processedCondition := some conditionImage,
          matchTemplateInvoked := true, ocrAttempts := cyc }
      | (TextExit.exhausted, cyc) =>
        { result := none, processedCondition := some conditionImage,
          matchTemplateInvoked := true, ocrAttempts := cyc }
    else
      { result := some clearResults, processedCondition := some conditionImage,
        matchTemplateInvoked := false, ocrAttempts := 0 }
  else
    { result := some clearResults, processedCondition := none,
      matchTemplateInvoked := false, ocrAttempts := 0 }

/-- The per-session state of the Detector referenced by detector.cpp: the
current screen frame, the cached scale ratio, and the conditionBitmap member
that line 77 of detector.cpp passes to match (the overload's own parameter
being named conditionImage there). -/
structure Detector where
  screenImage : ScreenImage
  scaleFactor : ℚ
  conditionBitmap : Image

/-- The whole-frame text-mode overload Detector::detectCondition(env,
conditionImage, identifying) (detector.cpp lines 75-78): sets the detection
ROI to the whole frame and calls the text-mode match with the identifier
`conditionBitmap` — not with the caller's `conditionImage` parameter. -/
def detectConditionTextFullScreen (d : Detector) (conditionImage : Image)
    (identifying : List Char) (ocr : Image → List Char)
    (candidates : List Candidate) : TextMatchTrace :=
  let detectionRoi := Roi.setFullSizeRect d.screenImage.fullSizeRoi d.scaleFactor
  matchText d.screenImage d.scaleFactor detectionRoi d.conditionBitmap
    identifying ocr candidates

/-- A property of a pixel: all three channel values lie in the 8-bit range
0 .. 255. -/
def pixelInByteRange (p : Pixel) : Prop :=
  (0 ≤ p.1 ∧ p.1 ≤ 255) ∧ (0 ≤ p.2.1 ∧ p.2.1 ≤ 255) ∧ (0 ≤ p.2.2 ∧ p.2.2 ≤ 255)

/-- A concrete screen frame: one black pixel followed by one white pixel. -/
def screenA : ScreenImage :=
  { fullSizeColor := [[(0, 0, 0), (255, 255, 255)]],
    fullSize := ⟨2, 1⟩, scaledSize := ⟨2, 1⟩ }

/-- The whole-frame detection ROI of screenA (scale ratio 1). -/
def roiA : Roi := { fullSize := ⟨0, 0, 2, 1⟩, scaled := ⟨0, 0, 2, 1⟩ }

/-- A one-pixel all-black condition image, processed at scale ratio 1. -/
def condA : ConditionImage := processBitmap [[(0, 0, 0)]] 1

/-- A candidate whose ROI covers the white pixel of screenA, with
correlation score 1. -/
def cA : Candidate := { scaledRoi := ⟨1, 0, 1, 1⟩, fullSizeRoi := ⟨1, 0, 1, 1⟩, maxVal := 1 }

/-- A concrete one-pixel all-white screen frame. -/
def screenC : ScreenImage :=
  { fullSizeColor := [[(255, 255, 255)]], fullSize := ⟨1, 1⟩, scaledSize := ⟨1, 1⟩ }

/-- The whole-frame detection ROI of screenC (scale ratio 1). -/
def roiC : Roi := { fullSize := ⟨0, 0, 1, 1⟩, scaled := ⟨0, 0, 1, 1⟩ }

/-- A candidate over the single pixel of screenC with correlation score 1/2. -/
def cC : Candidate := { scaledRoi := ⟨0, 0, 1, 1⟩, fullSizeRoi := ⟨0, 0, 1, 1⟩, maxVal := 1/2 }

/-- A candidate over the single pixel of screenC with correlation score 3/10. -/
def cB : Candidate := { scaledRoi := ⟨0, 0, 1, 1⟩, fullSizeRoi := ⟨0, 0, 1, 1⟩, maxVal := 3/10 }

/-- A one-pixel all-white bitmap. -/
def whiteBmp : Image := [[(255, 255, 255)]]

/-- A one-pixel all-black bitmap. -/
def blackBmp : Image := [[(0, 0, 0)]]

/-- A candidate whose scaled ROI lies outside the bounds of screenA and
screenC. -/
def cOut : Candidate := { scaledRoi := ⟨5, 5, 1, 1⟩, fullSizeRoi := ⟨5, 5, 1, 1⟩, maxVal := 1 }

/-- An OCR capability that reads the text LOG on the full frame of screenA
and nothing anywhere else. -/
def ocrA : Image → List Char :=
  fun img => if img = screenA.fullSizeColor then ['L', 'O', 'G'] else []

/-- An OCR capability that never reads any text. -/
def ocrNone : Image → List Char := fun _ => []

/-- A concrete detector state whose conditionBitmap member is the one-pixel
black bitmap, over the one-pixel white screen frame, at scale ratio 1. -/
def detectorD : Detector :=
  { screenImage := screenC, scaleFactor := 1, conditionBitmap := blackBmp }

/-- An OCR capability that reads the text LOG on every image. -/
def ocrLOG : Image → List Char := fun _ => ['L', 'O', 'G']

/-- A two-by-two all-white bitmap, larger than the one-pixel frames. -/
def bigBmp : Image :=
  [[(255, 255, 255), (255, 255, 255)], [(255, 255, 255), (255, 255, 255)]]

/-- A five-by-five detection ROI, larger than the one-pixel frames. -/
def roiBig : Roi := { fullSize := ⟨0, 0, 5, 5⟩, scaled := ⟨0, 0, 5, 5⟩ }

theorem getColorDiff_nonneg (x y : Image) : 0 ≤ getColorDiff x y := by
  unfold getColorDiff
  positivity

theorem meanOf_nonneg (l : List ℚ) (h : ∀ q ∈ l, 0 ≤ q) : 0 ≤ meanOf l := by
  unfold meanOf
  exact div_nonneg (List.sum_nonneg h) (by positivity)

theorem meanOf_le_255 (l : List ℚ) (h : ∀ q ∈ l, q ≤ 255) : meanOf l ≤ 255 := by
  unfold meanOf
  by_cases hl : l = []
  · subst hl; simp
  · have hpos : 0 < (l.length : ℚ) := by
      have h0 := List.length_pos.mpr hl
      exact_mod_cast h0
    rw [div_le_iff₀ hpos]
    calc l.sum ≤ l.length • (255 : ℚ) := List.sum_le_card_nsmul l 255 h
      _ = 255 * l.length := by rw [nsmul_eq_mul]; ring

theorem abs_sub_le_255 {a b : ℚ} (ha : 0 ≤ a ∧ a ≤ 255) (hb : 0 ≤ b ∧ b ≤ 255) :
    |a - b| ≤ 255 :=
  abs_sub_le_iff.mpr ⟨by linarith [ha.1, ha.2, hb.1, hb.2], by linarith [ha.1, ha.2, hb.1, hb.2]⟩

/-- C9: getColorDiff equals the sum over the three channels of the absolute
differences of the per-channel means, multiplied by 100 and divided by
255 * 3; consequently it lies in [0, 100] for images of 8-bit pixels, and
getColorDiff of an image with itself is 0. -/
theorem C9_colorDiff_formula_and_bounds (X Y : Image)
    (hX : ∀ p ∈ pixelList X, pixelInByteRange p)
    (hY : ∀ p ∈ pixelList Y, pixelInByteRange p) :
    getColorDiff X Y =
      ((|(meanColor X).1 - (meanColor Y).1| + |(meanColor X).2.1 - (meanColor Y).2.1| +
        |(meanColor X).2.2 - (meanColor Y).2.2|) * 100) / (255 * 3) ∧
    0 ≤ getColorDiff X Y ∧ getColorDiff X Y ≤ 100 ∧ getColorDiff X X = 0 := by
  have chan : ∀ (Z : Image) (f : Pixel → ℚ),
      (∀ p ∈ pixelList Z, pixelInByteRange p) →
      (∀ p : Pixel, pixelInByteRange p → 0 ≤ f p ∧ f p ≤ 255) →
      0 ≤ meanOf ((pixelList Z).map f) ∧ meanOf ((pixelList Z).map f) ≤ 255 := by
    intro Z f hZ hf
    constructor
    · apply meanOf_nonneg
      intro q hq
      rcases List.mem_map.mp hq with ⟨p, hp, rfl⟩
      exact (hf p (hZ p hp)).1
    · apply meanOf_le_255
      intro q hq
      rcases List.mem_map.mp hq with ⟨p, hp, rfl⟩
      exact (hf p (hZ p hp)).2
  have bX1 := chan X (fun p => p.1) hX (fun p hp => hp.1)
  have bX2 := chan X (fun p => p.2.1) hX (fun p hp => hp.2.1)
  have bX3 := chan X (fun p => p.2.2) hX (fun p hp => hp.2.2)
  have bY1 := chan Y (fun p => p.1) hY (fun p hp => hp.1)
  have bY2 := chan Y (fun p => p.2.1) hY (fun p hp => hp.2.1)
  have bY3 := chan Y (fun p => p.2.2) hY (fun p hp => hp.2.2)
  refine ⟨rfl, getColorDiff_nonneg X Y, ?_, ?_⟩
  · have h1 : |(meanColor X).1 - (meanColor Y).1| ≤ 255 := abs_sub_le_255 bX1 bY1
    have h2 : |(meanColor X).2.1 - (meanColor Y).2.1| ≤ 255 := abs_sub_le_255 bX2 bY2
    have h3 : |(meanColor X).2.2 - (meanColor Y).2.2| ≤ 255 := abs_sub_le_255 bX3 bY3
    unfold getColorDiff
    rw [div_le_iff₀ (by norm_num : (0 : ℚ) < 255 * 3)]
    linarith [h1, h2, h3]
  · unfold getColorDiff
    simp

/-- C9 witness: the theorem applied to the concrete one-pixel frames. -/
theorem C9_witness :
    (∀ p ∈ pixelList blackBmp, pixelInByteRange p) ∧
    (∀ p ∈ pixelList whiteBmp, pixelInByteRange p) ∧
    (0 ≤ getColorDiff blackBmp whiteBmp ∧ getColorDiff blackBmp whiteBmp ≤ 100 ∧
      getColorDiff blackBmp blackBmp = 0) := by
  have hb : ∀ p ∈ pixelList blackBmp, pixelInByteRange p := by
    intro p hp
    simp only [pixelList, blackBmp, List.flatten, List.mem_cons, List.mem_singleton,
      List.append_nil] at hp
    simp_all [pixelInByteRange]
  have hw : ∀ p ∈ pixelList whiteBmp, pixelInByteRange p := by
    intro p hp
    simp only [pixelList, whiteBmp, List.flatten, List.mem_cons, List.mem_singleton,
      List.append_nil] at hp
    simp_all [pixelInByteRange]
  exact ⟨hb, hw, (C9_colorDiff_formula_and_bounds blackBmp whiteBmp hb hw).2⟩

theorem visualLoop_accept_iff (screen : ScreenImage) (cropped : Image)
    (cond : ConditionImage) (t : Int) (cs : List Candidate) (c : Candidate) :
    visualLoop screen cropped cond t cs = some (true, c) ↔
      (firstInBounds screen cs = some c ∧ isResultAboveThreshold c.maxVal t = true ∧
        getColorDiff cropped cond.fullSizeColor < (t : ℚ)) := by
  induction cs with
  | nil => simp [visualLoop, firstInBounds]
  | cons c' rest ih =>
    by_cases hin : screen.isScaledContains c'.scaledRoi
    · have hF : firstInBounds screen (c' :: rest) = some c' := by
        simp [firstInBounds, hin]
      by_cases hth : isResultAboveThreshold c'.maxVal t
      · by_cases hcd : getColorDiff cropped cond.fullSizeColor < (t : ℚ)
        · have hL : visualLoop screen cropped cond t (c' :: rest) = some (true, c') := by
            simp [visualLoop, hin, hth, hcd]
          rw [hL, hF]
          simp only [Option.some.injEq, Prod.mk.injEq, true_and]
          constructor
          · rintro rfl
            exact ⟨rfl, hth, hcd⟩
          · rintro ⟨rfl, -, -⟩
            rfl
        · have hL : visualLoop screen cropped cond t (c' :: rest) =
              visualLoop screen cropped cond t rest := by
            simp [visualLoop, hin, hth, hcd]
          rw [hL, hF, ih]
          constructor
          · rintro ⟨-, -, h3⟩
            exact absurd h3 hcd
          · rintro ⟨-, -, h3⟩
            exact absurd h3 hcd
      · have hL : visualLoop screen cropped cond t (c' :: rest) = some (false, c') := by
          simp [visualLoop, hin, hth]
        rw [hL, hF]
        simp only [Option.some.injEq, Prod.mk.injEq, Bool.false_eq_true, false_and, false_iff]
        rintro ⟨rfl, h2, -⟩
        exact absurd h2 hth
    · have hL : visualLoop screen cropped cond t (c' :: rest) =
          visualLoop screen cropped cond t rest := by
        simp [visualLoop, hin]
      have hF : firstInBounds screen (c' :: rest) = firstInBounds screen rest := by
        simp [firstInBounds, hin]
      rw [hL, hF, ih]

/-- C1 (amended): in visual mode, for every threshold t, a candidate is
accepted exactly when it is the first candidate whose scaled ROI is in the
scaled frame bounds, its correlation score is strictly greater than
(100 - t) / 100, and the color distance between the ROI-cropped full-size
region and the template's full-size color is strictly less than t; in
particular threshold 0 accepts no candidate, and threshold 100 accepts the
first in-bounds candidate whenever its correlation is positive and that
color distance is strictly below 100. -/
theorem C1_visual_threshold_semantics (screen : ScreenImage) (cropped : Image)
    (cond : ConditionImage) :
    (∀ (t : Int) (cs : List Candidate) (c : Candidate),
        visualLoop screen cropped cond t cs = some (true, c) ↔
          (firstInBounds screen cs = some c ∧
            ((100 - t : Int) : ℚ) / 100 < c.maxVal ∧
            getColorDiff cropped cond.fullSizeColor < (t : ℚ))) ∧
    (∀ (cs : List Candidate) (c : Candidate),
        visualLoop screen cropped cond 0 cs ≠ some (true, c)) ∧
    (∀ (cs : List Candidate) (c : Candidate),
        firstInBounds screen cs = some c → 0 < c.maxVal →
        getColorDiff cropped cond.fullSizeColor < 100 →
        visualLoop screen cropped cond 100 cs = some (true, c)) := by
  have key : ∀ (t : Int) (cs : List Candidate) (c : Candidate),
      visualLoop screen cropped cond t cs = some (true, c) ↔
        (firstInBounds screen cs = some c ∧
          ((100 - t : Int) : ℚ) / 100 < c.maxVal ∧
          getColorDiff cropped cond.fullSizeColor < (t : ℚ)) := by
    intro t cs c
    rw [visualLoop_accept_iff]
    simp [isResultAboveThreshold]
  refine ⟨key, ?_, ?_⟩
  · intro cs c h
    have h2 := (key 0 cs c).mp h
    have h3 := getColorDiff_nonneg cropped cond.fullSizeColor
    have h4 : ((0 : Int) : ℚ) = 0 := by norm_num
    rw [h4] at h2
    linarith [h2.2.2]
  · intro cs c h1 h2 h3
    apply (key 100 cs c).mpr
    refine ⟨h1, ?_, ?_⟩
    · norm_num
      exact h2
    · exact_mod_cast h3

/-- C1 counterexample: with the two-pixel frame screenA (black then white),
the all-black template condA and threshold 60, the candidate cA over the
white pixel is accepted by the code although the color distance between the
candidate's own full-size region and the template is 100, not below 60 (the
code compares the ROI-cropped region instead); and with threshold 100 the
in-bounds candidate cC of the all-white one-pixel frame has positive
correlation 1/2 yet is not accepted, because the color distance is exactly
100. -/
theorem C1_counterexample :
    (visualLoop screenA (cropImage screenA.fullSizeColor roiA.fullSize) condA 60 [cA] =
        some (true, cA) ∧
      ¬ getColorDiff (cropImage screenA.fullSizeColor cA.fullSizeRoi) condA.fullSizeColor
          < ((60 : Int) : ℚ)) ∧
    (0 < cC.maxVal ∧ screenC.isScaledContains cC.scaledRoi = true ∧
      visualLoop screenC (cropImage screenC.fullSizeColor roiC.fullSize) condA 100 [cC] =
        none) := by
  have hcropA : cropImage screenA.fullSizeColor roiA.fullSize = [[(0, 0, 0), (255, 255, 255)]] := rfl
  have hcropCand : cropImage screenA.fullSizeColor cA.fullSizeRoi = [[(255, 255, 255)]] := rfl
  have hcropC : cropImage screenC.fullSizeColor roiC.fullSize = [[(255, 255, 255)]] := rfl
  have hcondA : condA.fullSizeColor = [[(0, 0, 0)]] := rfl
  have hd50 : getColorDiff [[((0 : ℚ), (0 : ℚ), (0 : ℚ)), (255, 255, 255)]] [[(0, 0, 0)]] = 50 := by
    norm_num [getColorDiff, meanColor, meanOf, pixelList, abs, max_def]
  have hd100 : getColorDiff [[((255 : ℚ), (255 : ℚ), (255 : ℚ))]] [[(0, 0, 0)]] = 100 := by
    norm_num [getColorDiff, meanColor, meanOf, pixelList, abs, max_def]
  have hinA : screenA.isScaledContains cA.scaledRoi = true := by decide
  have hinC : screenC.isScaledContains cC.scaledRoi = true := by decide
  refine ⟨⟨?_, ?_⟩, ?_, hinC, ?_⟩
  · apply (visualLoop_accept_iff screenA _ condA 60 [cA] cA).mpr
    refine ⟨?_, ?_, ?_⟩
    · simp [firstInBounds, hinA]
    · norm_num [isResultAboveThreshold, cA]
    · rw [hcropA, hcondA, hd50]
      norm_num
  · rw [hcropCand, hcondA, hd100]
    norm_num
  · norm_num [cC]
  · have hth : isResultAboveThreshold cC.maxVal 100 = true := by
      norm_num [isResultAboveThreshold, cC]
    have hnd : ¬ getColorDiff (cropImage screenC.fullSizeColor roiC.fullSize)
        condA.fullSizeColor < ((100 : Int) : ℚ) := by
      rw [hcropC, hcondA, hd100]
      norm_num
    simp only [visualLoop, hinC, hth, if_true, hnd, if_false]

/-- C1 witness: the amended theorem applied to the concrete frame screenA,
template condA, threshold 100 and candidate cA, whose hypotheses hold. -/
theorem C1_witness :
    firstInBounds screenA [cA] = some cA ∧ 0 < cA.maxVal ∧
      getColorDiff (cropImage screenA.fullSizeColor roiA.fullSize) condA.fullSizeColor < 100 ∧
      visualLoop screenA (cropImage screenA.fullSizeColor roiA.fullSize) condA 100 [cA] =
        some (true, cA) := by
  have hd : getColorDiff (cropImage screenA.fullSizeColor roiA.fullSize) condA.fullSizeColor
      = 50 := by
    have hcropA : cropImage screenA.fullSizeColor roiA.fullSize =
        [[(0, 0, 0), (255, 255, 255)]] := rfl
    have hcondA : condA.fullSizeColor = [[(0, 0, 0)]] := rfl
    rw [hcropA, hcondA]
    norm_num [getColorDiff, meanColor, meanOf, pixelList, abs, max_def]
  have hF : firstInBounds screenA [cA] = some cA := by
    simp [firstInBounds, show screenA.isScaledContains cA.scaledRoi = true from by decide]
  refine ⟨hF, by norm_num [cA], by rw [hd]; norm_num, ?_⟩
  exact (C1_visual_threshold_semantics screenA
      (cropImage screenA.fullSizeColor roiA.fullSize) condA).2.2 [cA] cA hF
    (by norm_num [cA]) (by rw [hd]; norm_num)

theorem scaleDim_one (v : Int) : scaleDim v 1 = v := by
  rw [scaleDim, mul_one, round_intCast]

theorem processBitmap_one (bmp : Image) :
    processBitmap bmp 1 =
      { fullSizeColor := bmp, scaledSize := ⟨imageWidth bmp, imageHeight bmp⟩ } := by
  simp [processBitmap, scaleDim_one]

/-- C2 (amended): each detection call produces the outcome exactly once with
a fully determined per-path shape: the ROI-invalid and template-too-large
paths clear it to the canonical not-found value in both modes, the text-mode
cap path clears it, a found text candidate is fully set with its full-size
center and score, and a resolved visual loop always writes the found flag
together with the deciding candidate's full-size center and its correlation
score as confidence — so the visual floor-failure path keeps that
candidate's coordinates and score instead of the cleared value. -/
theorem C2_outcome_per_path (screen : ScreenImage) (scaleFactor : ℚ) (detectionRoi : Roi)
    (conditionBitmap : Image) (threshold : Int) (identifying : List Char)
    (ocr : Image → List Char) (candidates : List Candidate) :
    ((screen.isFullSizeContains detectionRoi.fullSize &&
        screen.isScaledContains detectionRoi.scaled) = false →
      (matchVisual screen scaleFactor detectionRoi conditionBitmap threshold
        candidates).result = some clearResults ∧
      (matchText screen scaleFactor detectionRoi conditionBitmap identifying ocr
        candidates).result = some clearResults) ∧
    ((screen.isFullSizeContains detectionRoi.fullSize &&
        screen.isScaledContains detectionRoi.scaled) = true →
      isCroppedScaledContains detectionRoi
        (processBitmap conditionBitmap scaleFactor).scaledSize = false →
      (matchVisual screen scaleFactor detectionRoi conditionBitmap threshold
        candidates).result = some clearResults ∧
      (matchText screen scaleFactor detectionRoi conditionBitmap identifying ocr
        candidates).result = some clearResults) ∧
    (∀ (isFound : Bool) (c : Candidate),
      (screen.isFullSizeContains detectionRoi.fullSize &&
        screen.isScaledContains detectionRoi.scaled) = true →
      isCroppedScaledContains detectionRoi
        (processBitmap conditionBitmap scaleFactor).scaledSize = true →
      visualLoop screen (cropImage screen.fullSizeColor detectionRoi.fullSize)
          (processBitmap conditionBitmap scaleFactor) threshold candidates =
        some (isFound, c) →
      (matchVisual screen scaleFactor detectionRoi conditionBitmap threshold
          candidates).result =
        some (setResults isFound (detectionRoi.fullSize.x + c.fullSizeCenterX)
          (detectionRoi.fullSize.y + c.fullSizeCenterY) c.maxVal)) ∧
    (∀ (cyc : Nat),
      (screen.isFullSizeContains detectionRoi.fullSize &&
        screen.isScaledContains detectionRoi.scaled) = true →
      isCroppedScaledContains detectionRoi
        (processBitmap conditionBitmap scaleFactor).scaledSize = true →
      textLoop screen ocr identifying 0 candidates = (TextExit.capReached, cyc) →
      (matchText screen scaleFactor detectionRoi conditionBitmap identifying ocr
        candidates).result = some clearResults) ∧
    (∀ (c : Candidate) (cyc : Nat),
      (screen.isFullSizeContains detectionRoi.fullSize &&
        screen.isScaledContains detectionRoi.scaled) = true →
      isCroppedScaledContains detectionRoi
        (processBitmap conditionBitmap scaleFactor).scaledSize = true →
      textLoop screen ocr identifying 0 candidates = (TextExit.foundAt c, cyc) →
      (matchText screen scaleFactor detectionRoi conditionBitmap identifying ocr
          candidates).result =
        some (setResults true (detectionRoi.fullSize.x + c.fullSizeCenterX)
          (detectionRoi.fullSize.y + c.fullSizeCenterY) c.maxVal)) := by
  refine ⟨?_, ?_, ?_, ?_, ?_⟩
  · intro hbad
    constructor
    · simp only [matchVisual, hbad, Bool.false_eq_true, if_false]
    · simp only [matchText, hbad, Bool.false_eq_true, if_false]
  · intro hroi hbig
    constructor
    · simp only [matchVisual, hroi, if_true, hbig, Bool.false_eq_true, if_false]
    · simp only [matchText, hroi, if_true, hbig, Bool.false_eq_true, if_false]
  · intro isFound c hroi hfit hloop
    simp only [matchVisual, hroi, if_true, hfit, hloop]
  · intro cyc hroi hfit hloop
    simp only [matchText, hroi, if_true, hfit, hloop]
  · intro c cyc hroi hfit hloop
    simp only [matchText, hroi, if_true, hfit, hloop]

/-- C2 witness: the amended theorem applied on the visual floor-failure
path: in the one-pixel white frame with the white template and threshold 50,
the loop resolves (false, cB), and the outcome keeps cB's center and its
correlation 3/10 as confidence. -/
theorem C2_witness :
    visualLoop screenC (cropImage screenC.fullSizeColor roiC.fullSize)
        (processBitmap whiteBmp 1) 50 [cB] = some (false, cB) ∧
    (matchVisual screenC 1 roiC whiteBmp 50 [cB]).result =
      some (setResults false (roiC.fullSize.x + cB.fullSizeCenterX)
        (roiC.fullSize.y + cB.fullSizeCenterY) cB.maxVal) := by
  have hin : screenC.isScaledContains cB.scaledRoi = true := by decide
  have hth : isResultAboveThreshold cB.maxVal 50 = false := by
    simp only [isResultAboveThreshold, cB, decide_eq_false_iff_not, not_lt]
    norm_num
  have hloop : visualLoop screenC (cropImage screenC.fullSizeColor roiC.fullSize)
      (processBitmap whiteBmp 1) 50 [cB] = some (false, cB) := by
    simp [visualLoop, hin, hth]
  refine ⟨hloop, ?_⟩
  exact (C2_outcome_per_path screenC 1 roiC whiteBmp 50 ['L'] ocrNone [cB]).2.2.1 false cB
    (by decide) (by rw [processBitmap_one]; decide) hloop

/-- C2 counterexample: with the one-pixel white frame, the white template
and threshold 50, the only candidate cB (correlation 3/10) fails the
acceptance floor 1/2, the call resolves found = false, and the outcome keeps
cB's correlation 3/10 as confidence — it is not the cleared canonical value
with zeroed confidence. -/
theorem C2_counterexample :
    (matchVisual screenC 1 roiC whiteBmp 50 [cB]).result =
      some (setResults false 0 0 (3/10)) ∧
    setResults false 0 0 (3/10) ≠ clearResults := by
  constructor
  · have hroi : (screenC.isFullSizeContains roiC.fullSize &&
        screenC.isScaledContains roiC.scaled) = true := by decide
    have hin : screenC.isScaledContains cB.scaledRoi = true := by decide
    have hth : isResultAboveThreshold cB.maxVal 50 = false := by
      simp only [isResultAboveThreshold, cB, decide_eq_false_iff_not, not_lt]
      norm_num
    have hloop : visualLoop screenC (cropImage screenC.fullSizeColor roiC.fullSize)
        (processBitmap whiteBmp 1) 50 [cB] = some (false, cB) := by
      simp [visualLoop, hin, hth]
    have hsize : isCroppedScaledContains roiC (processBitmap whiteBmp 1).scaledSize = true := by
      rw [processBitmap_one]
      decide
    simp only [matchVisual, hroi, if_true, hsize, hloop]
    norm_num [setResults, cB, Candidate.fullSizeCenterX, Candidate.fullSizeCenterY, roiC]
  · simp only [setResults, clearResults, ne_eq, DetectionResultState.mk.injEq]
    norm_num

/-- C4: in the visual-mode search loop, every candidate whose scaled ROI is
out of the scaled frame bounds is discarded and the search continues with
the next candidate, and the first in-bounds candidate whose score cannot
clear the acceptance floor resolves the call not-found immediately at that
candidate, whatever candidates would follow. -/
theorem C4_oob_skip_and_early_exit (screen : ScreenImage) (cropped : Image)
    (cond : ConditionImage) (threshold : Int) (pre : List Candidate) (c : Candidate)
    (rest : List Candidate)
    (hpre : ∀ c' ∈ pre, screen.isScaledContains c'.scaledRoi = false)
    (hc : screen.isScaledContains c.scaledRoi = true)
    (hth : isResultAboveThreshold c.maxVal threshold = false) :
    visualLoop screen cropped cond threshold (pre ++ c :: rest) = some (false, c) := by
  induction pre with
  | nil => simp [visualLoop, hc, hth]
  | cons p ps ih =>
    have hp : screen.isScaledContains p.scaledRoi = false := hpre p (List.mem_cons_self p ps)
    have hrec := ih (fun c' hc' => hpre c' (List.mem_cons_of_mem p hc'))
    simpa [visualLoop, hp] using hrec

/-- C4 witness: the theorem applied to the concrete one-pixel frame with an
out-of-bounds candidate followed by a below-floor in-bounds candidate and a
further candidate that is never examined. -/
theorem C4_witness :
    (∀ c' ∈ [cOut], screenC.isScaledContains c'.scaledRoi = false) ∧
    screenC.isScaledContains cB.scaledRoi = true ∧
    isResultAboveThreshold cB.maxVal 50 = false ∧
    visualLoop screenC (cropImage screenC.fullSizeColor roiC.fullSize) condA 50
      ([cOut] ++ cB :: [cA]) = some (false, cB) := by
  have h1 : ∀ c' ∈ [cOut], screenC.isScaledContains c'.scaledRoi = false := by
    intro c' hc'
    simp only [List.mem_singleton] at hc'
    subst hc'
    decide
  have h2 : screenC.isScaledContains cB.scaledRoi = true := by decide
  have h3 : isResultAboveThreshold cB.maxVal 50 = false := by
    simp only [isResultAboveThreshold, cB, decide_eq_false_iff_not, not_lt]
    norm_num
  exact ⟨h1, h2, h3,
    C4_oob_skip_and_early_exit screenC _ condA 50 [cOut] cB [cA] h1 h2 h3⟩

/-- C6: if the template's scaled dimensions exceed the ROI-cropped search
area in either axis, both detection modes produce the cleared found = false
outcome and never invoke the correlation engine, whatever the pixel
content. -/
theorem C6_template_too_large (screen : ScreenImage) (scaleFactor : ℚ)
    (detectionRoi : Roi) (conditionBitmap : Image) (threshold : Int)
    (identifying : List Char) (ocr : Image → List Char) (candidates : List Candidate)
    (hbig : isCroppedScaledContains detectionRoi
      (processBitmap conditionBitmap scaleFactor).scaledSize = false) :
    ((matchVisual screen scaleFactor detectionRoi conditionBitmap threshold
        candidates).result = some clearResults ∧
      (matchVisual screen scaleFactor detectionRoi conditionBitmap threshold
        candidates).matchTemplateInvoked = false) ∧
    ((matchText screen scaleFactor detectionRoi conditionBitmap identifying ocr
        candidates).result = some clearResults ∧
      (matchText screen scaleFactor detectionRoi conditionBitmap identifying ocr
        candidates).matchTemplateInvoked = false) := by
  constructor
  · simp only [matchVisual, hbig, Bool.false_eq_true, if_false]
    split
    · exact ⟨rfl, rfl⟩
    · exact ⟨rfl, rfl⟩
  · simp only [matchText, hbig, Bool.false_eq_true, if_false]
    split
    · simp
    · simp

/-- C6 witness: the theorem applied to the one-pixel frame with the
two-by-two template, whose scaled size exceeds the cropped search area. -/
theorem C6_witness :
    isCroppedScaledContains roiC (processBitmap bigBmp 1).scaledSize = false ∧
    (matchVisual screenC 1 roiC bigBmp 80 [cB]).result = some clearResults ∧
    (matchVisual screenC 1 roiC bigBmp 80 [cB]).matchTemplateInvoked = false ∧
    (matchText screenC 1 roiC bigBmp ['L'] ocrNone [cB]).result = some clearResults ∧
    (matchText screenC 1 roiC bigBmp ['L'] ocrNone [cB]).matchTemplateInvoked = false := by
  have hbig : isCroppedScaledContains roiC (processBitmap bigBmp 1).scaledSize = false := by
    rw [processBitmap_one]
    decide
  have h := C6_template_too_large screenC 1 roiC bigBmp 80 ['L'] ocrNone [cB] hbig
  exact ⟨hbig, h.1.1, h.1.2, h.2.1, h.2.2⟩

/-- C7: if the detection ROI is out of the frame bounds in the full-size or
the scaled coordinate space, both detection modes clear the outcome, process
no template image and invoke no matching. -/
theorem C7_invalid_roi (screen : ScreenImage) (scaleFactor : ℚ) (detectionRoi : Roi)
    (conditionBitmap : Image) (threshold : Int) (identifying : List Char)
    (ocr : Image → List Char) (candidates : List Candidate)
    (hbad : screen.isFullSizeContains detectionRoi.fullSize = false ∨
      screen.isScaledContains detectionRoi.scaled = false) :
    ((matchVisual screen scaleFactor detectionRoi conditionBitmap threshold
        candidates).result = some clearResults ∧
      (matchVisual screen scaleFactor detectionRoi conditionBitmap threshold
        candidates).processedCondition = none ∧
      (matchVisual screen scaleFactor detectionRoi conditionBitmap threshold
        candidates).matchTemplateInvoked = false) ∧
    ((matchText screen scaleFactor detectionRoi conditionBitmap identifying ocr
        candidates).result = some clearResults ∧
      (matchText screen scaleFactor detectionRoi conditionBitmap identifying ocr
        candidates).processedCondition = none ∧
      (matchText screen scaleFactor detectionRoi conditionBitmap identifying ocr
        candidates).matchTemplateInvoked = false) := by
  have hcond : (screen.isFullSizeContains detectionRoi.fullSize &&
      screen.isScaledContains detectionRoi.scaled) = false := by
    rcases hbad with h | h <;> simp [h]
  constructor
  · simp only [matchVisual, hcond, Bool.false_eq_true, if_false]
    exact ⟨trivial, trivial, trivial⟩
  · simp only [matchText, hcond, Bool.false_eq_true, if_false]
    exact ⟨trivial, trivial, trivial⟩

/-- C7 witness: the theorem applied to the one-pixel frame with the
five-by-five detection ROI, which is out of bounds in both spaces. -/
theorem C7_witness :
    screenC.isFullSizeContains roiBig.fullSize = false ∧
    (matchVisual screenC 1 roiBig whiteBmp 80 [cB]).result = some clearResults ∧
    (matchVisual screenC 1 roiBig whiteBmp 80 [cB]).processedCondition = none ∧
    (matchVisual screenC 1 roiBig whiteBmp 80 [cB]).matchTemplateInvoked = false ∧
    (matchText screenC 1 roiBig whiteBmp ['L'] ocrNone [cB]).result = some clearResults ∧
    (matchText screenC 1 roiBig whiteBmp ['L'] ocrNone [cB]).processedCondition = none ∧
    (matchText screenC 1 roiBig whiteBmp ['L'] ocrNone [cB]).matchTemplateInvoked = false := by
  have hbad : screenC.isFullSizeContains roiBig.fullSize = false := by decide
  have h := C7_invalid_roi screenC 1 roiBig whiteBmp 80 ['L'] ocrNone [cB] (Or.inl hbad)
  exact ⟨hbad, h.1.1, h.1.2.1, h.1.2.2, h.2.1, h.2.2.1, h.2.2.2⟩

theorem textLoop_cap (screen : ScreenImage) (ocr : Image → List Char)
    (identifying : List Char)
    (hno : isSubstringOf identifying (ocr screen.fullSizeColor) = false) :
    ∀ (cs : List Candidate) (n : Nat), n < 100 →
      100 - n ≤ (cs.filter fun c => screen.isScaledContains c.scaledRoi).length →
      textLoop screen ocr identifying n cs = (TextExit.capReached, 100) := by
  intro cs
  induction cs with
  | nil =>
    intro n h1 h2
    simp only [List.filter_nil, List.length_nil] at h2
    omega
  | cons c rest ih =>
    intro n h1 h2
    by_cases hin : screen.isScaledContains c.scaledRoi
    · simp only [textLoop, hin, if_true, hno, Bool.false_eq_true, if_false]
      by_cases hcap : n + 1 ≥ 100
      · have hn : n = 99 := by omega
        subst hn
        rw [if_pos hcap]
      · rw [if_neg hcap]
        apply ih (n + 1) (by omega)
        rw [List.filter_cons_of_pos (by simpa using hin)] at h2
        simp only [List.length_cons] at h2
        omega
    · simp only [textLoop, hin, Bool.false_eq_true, if_false]
      apply ih n h1
      rw [List.filter_cons_of_neg (by simpa using hin)] at h2
      exact h2

theorem textLoop_found (screen : ScreenImage) (ocr : Image → List Char)
    (identifying : List Char)
    (hyes : isSubstringOf identifying (ocr screen.fullSizeColor) = true) :
    ∀ (pre : List Candidate) (c : Candidate) (rest : List Candidate) (n : Nat),
      (∀ c' ∈ pre, screen.isScaledContains c'.scaledRoi = false) →
      screen.isScaledContains c.scaledRoi = true →
      textLoop screen ocr identifying n (pre ++ c :: rest) = (TextExit.foundAt c, n) := by
  intro pre
  induction pre with
  | nil =>
    intro c rest n hpre hc
    simp [textLoop, hc, hyes]
  | cons p ps ih =>
    intro c rest n hpre hc
    have hp : screen.isScaledContains p.scaledRoi = false := hpre p (List.mem_cons_self p ps)
    simp only [List.cons_append, textLoop, hp, Bool.false_eq_true, if_false]
    exact ih c rest n (fun c' h => hpre c' (List.mem_cons_of_mem p h)) hc

theorem textLoop_score_blind (screen : ScreenImage) (ocr : Image → List Char)
    (identifying : List Char) (g : Candidate → ℚ) :
    ∀ (cs : List Candidate) (n : Nat),
      textLoop screen ocr identifying n (cs.map fun c2 => { c2 with maxVal := g c2 }) =
        ((textLoop screen ocr identifying n cs).1.mapCand
          (fun c2 => { c2 with maxVal := g c2 }),
         (textLoop screen ocr identifying n cs).2) := by
  intro cs
  induction cs with
  | nil =>
    intro n
    simp [textLoop, TextExit.mapCand]
  | cons c rest ih =>
    intro n
    by_cases hin : screen.isScaledContains c.scaledRoi
    · by_cases hyes : isSubstringOf identifying (ocr screen.fullSizeColor) = true
      · simp [List.map_cons, textLoop, hin, hyes, TextExit.mapCand]
      · have hno : isSubstringOf identifying (ocr screen.fullSizeColor) = false := by
          simpa using hyes
        by_cases hcap : n + 1 ≥ 100
        · simp [List.map_cons, textLoop, hin, hno, hcap, TextExit.mapCand]
        · simp only [List.map_cons, textLoop, hin, if_true, hno, Bool.false_eq_true,
            if_false, hcap]
          exact ih (n + 1)
    · simp only [List.map_cons, textLoop, hin, Bool.false_eq_true, if_false]
      exact ih n

/-- C5: in text mode, when the target string never occurs in the text
extracted by the OCR capability, a valid call whose candidate stream offers
at least 100 in-bounds candidates performs exactly 100 OCR extraction
attempts and then resolves not-found with the cleared outcome — the
exhausted cap is reported as not found, not as an error. -/
theorem C5_text_cap_exactly_100 (screen : ScreenImage) (scaleFactor : ℚ)
    (detectionRoi : Roi) (conditionBitmap : Image) (identifying : List Char)
    (ocr : Image → List Char) (candidates : List Candidate)
    (hroi : (screen.isFullSizeContains detectionRoi.fullSize &&
      screen.isScaledContains detectionRoi.scaled) = true)
    (hfit : isCroppedScaledContains detectionRoi
      (processBitmap conditionBitmap scaleFactor).scaledSize = true)
    (hno : isSubstringOf identifying (ocr screen.fullSizeColor) = false)
    (hcount : 100 ≤ (candidates.filter fun c =>
      screen.isScaledContains c.scaledRoi).length) :
    (matchText screen scaleFactor detectionRoi conditionBitmap identifying ocr
      candidates).ocrAttempts = 100 ∧
    (matchText screen scaleFactor detectionRoi conditionBitmap identifying ocr
      candidates).result = some clearResults := by
  have hloop := textLoop_cap screen ocr identifying hno candidates 0 (by omega)
    (by simpa using hcount)
  simp only [matchText, hroi, if_true, hfit, hloop]
  exact ⟨trivial, trivial⟩

/-- C5 witness: the theorem applied to the one-pixel frame with an OCR
capability that reads nothing and a stream of 100 in-bounds candidates. -/
theorem C5_witness :
    isSubstringOf ['L'] (ocrNone screenC.fullSizeColor) = false ∧
    100 ≤ ((List.replicate 100 cB).filter fun c =>
      screenC.isScaledContains c.scaledRoi).length ∧
    (matchText screenC 1 roiC whiteBmp ['L'] ocrNone
      (List.replicate 100 cB)).ocrAttempts = 100 ∧
    (matchText screenC 1 roiC whiteBmp ['L'] ocrNone
      (List.replicate 100 cB)).result = some clearResults := by
  have hno : isSubstringOf ['L'] (ocrNone screenC.fullSizeColor) = false := by decide
  have hcount : 100 ≤ ((List.replicate 100 cB).filter fun c =>
      screenC.isScaledContains c.scaledRoi).length := by decide
  have h := C5_text_cap_exactly_100 screenC 1 roiC whiteBmp ['L'] ocrNone
    (List.replicate 100 cB) (by decide) (by rw [processBitmap_one]; decide) hno hcount
  exact ⟨hno, hcount, h.1, h.2⟩

/-- C8: in text mode the call resolves found = true on the first in-bounds
candidate once the extracted OCR text contains the target as a literal
substring, reporting that candidate's center and score, and the correlation
scores of the candidates never influence which candidate is accepted, how
many OCR attempts happen, or whether the loop exits found, capped or
exhausted — the correlation surface only enumerates candidate locations. -/
theorem C8_text_accept_semantics (screen : ScreenImage) (scaleFactor : ℚ)
    (detectionRoi : Roi) (conditionBitmap : Image) (identifying : List Char)
    (ocr : Image → List Char) (pre : List Candidate) (c : Candidate)
    (rest : List Candidate)
    (hroi : (screen.isFullSizeContains detectionRoi.fullSize &&
      screen.isScaledContains detectionRoi.scaled) = true)
    (hfit : isCroppedScaledContains detectionRoi
      (processBitmap conditionBitmap scaleFactor).scaledSize = true)
    (hpre : ∀ c' ∈ pre, screen.isScaledContains c'.scaledRoi = false)
    (hc : screen.isScaledContains c.scaledRoi = true)
    (hyes : isSubstringOf identifying (ocr screen.fullSizeColor) = true) :
    (matchText screen scaleFactor detectionRoi conditionBitmap identifying ocr
        (pre ++ c :: rest)).result =
      some (setResults true (detectionRoi.fullSize.x + c.fullSizeCenterX)
        (detectionRoi.fullSize.y + c.fullSizeCenterY) c.maxVal) ∧
    (∀ (g : Candidate → ℚ) (cs : List Candidate) (n : Nat),
      textLoop screen ocr identifying n (cs.map fun c2 => { c2 with maxVal := g c2 }) =
        ((textLoop screen ocr identifying n cs).1.mapCand
          (fun c2 => { c2 with maxVal := g c2 }),
         (textLoop screen ocr identifying n cs).2)) := by
  constructor
  · have hloop := textLoop_found screen ocr identifying hyes pre c rest 0 hpre hc
    simp only [matchText, hroi, if_true, hfit, hloop]
  · intro g cs n
    exact textLoop_score_blind screen ocr identifying g cs n

/-- C8 witness: the theorem applied to the two-pixel frame whose OCR text is
LOG, with an out-of-bounds candidate preceding the in-bounds candidate cA. -/
theorem C8_witness :
    isSubstringOf ['L', 'O', 'G'] (ocrA screenA.fullSizeColor) = true ∧
    (matchText screenA 1 roiA blackBmp ['L', 'O', 'G'] ocrA
        ([cOut] ++ cA :: [])).result = some (setResults true 1 0 cA.maxVal) := by
  have hyes : isSubstringOf ['L', 'O', 'G'] (ocrA screenA.fullSizeColor) = true := by decide
  have hpre : ∀ c' ∈ [cOut], screenA.isScaledContains c'.scaledRoi = false := by
    intro c' h
    simp only [List.mem_singleton] at h
    subst h
    decide
  have h := C8_text_accept_semantics screenA 1 roiA blackBmp ['L', 'O', 'G'] ocrA
    [cOut] cA [] (by decide) (by rw [processBitmap_one]; decide) hpre (by decide) hyes
  refine ⟨hyes, ?_⟩
  rw [h.1]
  decide

/-- C3 (amended): in text mode the image handed to the OCR capability is the
frame's full-size color image, identical for every candidate — the search
loop's behaviour depends on the OCR capability only through the text it
extracts from that one frame image — and acceptance tests literal
case-sensitive substring containment of the target in that extracted text. -/
theorem C3_ocr_reads_full_frame (screen : ScreenImage) :
    (∀ (ocr1 ocr2 : Image → List Char) (identifying : List Char) (n : Nat)
        (cs : List Candidate),
      ocr1 screen.fullSizeColor = ocr2 screen.fullSizeColor →
      textLoop screen ocr1 identifying n cs = textLoop screen ocr2 identifying n cs) ∧
    (∀ (ocr : Image → List Char) (identifying : List Char) (n m : Nat)
        (cs : List Candidate) (c : Candidate),
      textLoop screen ocr identifying n cs = (TextExit.foundAt c, m) →
      isSubstringOf identifying (ocr screen.fullSizeColor) = true) := by
  constructor
  · intro ocr1 ocr2 identifying n cs h
    induction cs generalizing n with
    | nil => simp [textLoop]
    | cons c rest ih =>
      by_cases hin : screen.isScaledContains c.scaledRoi
      · simp only [textLoop, hin, if_true, h]
        by_cases hyes : isSubstringOf identifying (ocr2 screen.fullSizeColor) = true
        · simp [hyes]
        · have hno : isSubstringOf identifying (ocr2 screen.fullSizeColor) = false := by
            simpa using hyes
          by_cases hcap : n + 1 ≥ 100
          · simp [hno, hcap]
          · simp only [hno, Bool.false_eq_true, if_false]
            rw [if_neg hcap, if_neg hcap]
            exact ih (n + 1)
      · simp only [textLoop, hin, Bool.false_eq_true, if_false]
        exact ih n
  · intro ocr identifying n m cs c h
    induction cs generalizing n with
    | nil => simp [textLoop] at h
    | cons c' rest ih =>
      by_cases hin : screen.isScaledContains c'.scaledRoi
      · by_cases hyes : isSubstringOf identifying (ocr screen.fullSizeColor) = true
        · exact hyes
        · have hno : isSubstringOf identifying (ocr screen.fullSizeColor) = false := by
            simpa using hyes
          by_cases hcap : n + 1 ≥ 100
          · rw [show textLoop screen ocr identifying n (c' :: rest) =
                (TextExit.capReached, n + 1) from by simp [textLoop, hin, hno, hcap]] at h
            simp at h
          · rw [show textLoop screen ocr identifying n (c' :: rest) =
                textLoop screen ocr identifying (n + 1) rest from by
              simp only [textLoop, hin, if_true, hno, Bool.false_eq_true, if_false]
              rw [if_neg hcap]] at h
            exact ih (n + 1) h
      · rw [show textLoop screen ocr identifying n (c' :: rest) =
            textLoop screen ocr identifying n rest from by
          simp [textLoop, hin]] at h
        exact ih n h

/-- C3 counterexample: the OCR capability ocrA extracts LOG from the whole
frame of screenA but nothing from the candidate cA's own full-size region
(the white pixel), yet the text loop accepts cA — the image handed to the
OCR capability is the whole frame, not the candidate's region, whose
extracted text does not contain the target. -/
theorem C3_counterexample :
    textLoop screenA ocrA ['L', 'O', 'G'] 0 [cA] = (TextExit.foundAt cA, 0) ∧
    ocrA (cropImage screenA.fullSizeColor cA.fullSizeRoi) = [] ∧
    isSubstringOf ['L', 'O', 'G']
      (ocrA (cropImage screenA.fullSizeColor cA.fullSizeRoi)) = false := by
  refine ⟨?_, by decide, by decide⟩
  simp [textLoop, show screenA.isScaledContains cA.scaledRoi = true from by decide,
    show isSubstringOf ['L', 'O', 'G'] (ocrA screenA.fullSizeColor) = true from by decide]

/-- C3 witness: the amended theorem applied to ocrA and the constant
capability ocrLOG, which agree on the frame of screenA, and to the found
run of the counterexample's loop. -/
theorem C3_witness :
    ocrA screenA.fullSizeColor = ocrLOG screenA.fullSizeColor ∧
    textLoop screenA ocrA ['L', 'O', 'G'] 0 [cA, cB] =
      textLoop screenA ocrLOG ['L', 'O', 'G'] 0 [cA, cB] := by
  have h : ocrA screenA.fullSizeColor = ocrLOG screenA.fullSizeColor := by decide
  exact ⟨h, (C3_ocr_reads_full_frame screenA).1 ocrA ocrLOG ['L', 'O', 'G'] 0 [cA, cB] h⟩

/-- C10: the whole-frame text-mode overload ignores its template parameter —
the behaviour of detectConditionTextFullScreen does not depend on the
caller-supplied bitmap, and the condition image actually processed is the
one built from the detector's conditionBitmap member, which differs from the
caller's template here. -/
theorem C10_caller_template_ignored :
    (∀ b1 b2 : Image, detectConditionTextFullScreen detectorD b1 ['L'] ocrNone [] =
      detectConditionTextFullScreen detectorD b2 ['L'] ocrNone []) ∧
    (detectConditionTextFullScreen detectorD whiteBmp ['L'] ocrNone
      []).processedCondition = some (processBitmap detectorD.conditionBitmap 1) ∧
    processBitmap detectorD.conditionBitmap 1 ≠ processBitmap whiteBmp 1 := by
  refine ⟨fun b1 b2 => rfl, ?_, ?_⟩
  · have hroiD : Roi.setFullSizeRect detectorD.screenImage.fullSizeRoi
        detectorD.scaleFactor = roiC := by
      simp [Roi.setFullSizeRect, ScreenImage.fullSizeRoi, scaleDim_one, roiC,
        detectorD, screenC]
    have hfit : isCroppedScaledContains roiC (processBitmap blackBmp 1).scaledSize
        = true := by
      rw [processBitmap_one]
      decide
    have hroi : (screenC.isFullSizeContains roiC.fullSize &&
        screenC.isScaledContains roiC.scaled) = true := by decide
    simp only [detectConditionTextFullScreen, hroiD]
    show (matchText screenC 1 roiC blackBmp ['L'] ocrNone []).processedCondition = _
    simp only [matchText, hroi, if_true, hfit, textLoop]
    rfl
  · rw [show detectorD.conditionBitmap = blackBmp from rfl, processBitmap_one,
      processBitmap_one]
    simp only [ne_eq, ConditionImage.mk.injEq, not_and]
    intro h
    exact absurd h (by decide)
